import Mathlib

/-!
Verification development for the patient-matching service.

The Python sources are shallowly embedded: pure fragments become Lean
functions over explicit data; the read-only datasets, the external
geocoding library (`pgeocode`), the fuzzy string-similarity library
(`rapidfuzz`) and the real-time clock enter as explicit environment
records, so every definition is executable and every property can be
evaluated on concrete inputs.
-/

namespace PatientMatching

/-! ## Python rounding

`round(x, n)` in Python rounds half to even.  Scores are integers and the
normalisation arithmetic is exact rational arithmetic here, so the
rounding is modelled exactly on `ℚ`. -/

/-- Round a rational to the nearest integer, ties to even (Python `round`). -/
def roundHalfEven (q : ℚ) : ℤ :=
  let f := ⌊q⌋
  let r := q - (f : ℚ)
  if r < 1/2 then f
  else if 1/2 < r then f + 1
  else if 2 ∣ f then f else f + 1

/-- Python `round(q, n)`: round half to even at `n` decimal digits. -/
def pyRound (q : ℚ) (n : ℕ) : ℚ :=
  (roundHalfEven (q * 10 ^ n) : ℚ) / 10 ^ n

/-! ## Geolocation resolver (`src/src/core/distance.py`)

`detect_country_and_coords`, the `pgeocode` country tables and the
floating-point haversine computation are external lookups; they are
captured in a `GeoEnv` record.  `resolve pc` models
`detect_country_and_coords(pc)`: `some (country, lat, lon)` when some
country's reference table yields valid coordinates for the code, `none`
when the scan fails (the Python function then returns
`(None, None, None)`; it never returns a country without coordinates).
`geoDist c a b` models `pgeocode.GeoDistance(c).query_postal_code(a, b)`:
`none` covers an unavailable `GeoDistance` object, an exception, or a NaN
result.  `haversine` models `haversine_distance` (lines 26-33), a fixed
real-valued function of the two coordinate pairs. -/

/-- Constant `Settings.DEFAULT_DISTANCE` (`src/src/config/settings.py` line 32),
the "unknown distance" sentinel. -/
def DEFAULT_DISTANCE : ℚ := 999

/-- External geocoding environment consumed by the distance calculator. -/
structure GeoEnv where
  resolve : String → Option (String × ℚ × ℚ)
  geoDist : String → String → String → Option ℚ
  haversine : ℚ → ℚ → ℚ → ℚ → ℚ

/-- Embeds `DistanceCalculator._calculate_single_distance`
(`src/src/core/distance.py` lines 123-156): identical codes short-circuit
to `0.0` before any resolution; otherwise both codes are resolved; with
both resolved and in the same country the native pairwise table is tried
first, falling back to haversine; with both resolved in different
countries haversine is used; if either code fails to resolve (or any
exception occurs) the sentinel `DEFAULT_DISTANCE` is returned. -/
def calculateSingleDistance (env : GeoEnv) (patientZip siteZip : String) : ℚ :=
  if patientZip = siteZip then 0
  else
    match env.resolve patientZip, env.resolve siteZip with
    | some (c1, lat1, lon1), some (c2, lat2, lon2) =>
      if c1 = c2 then
        match env.geoDist c1 patientZip siteZip with
        | some d => d
        | none => env.haversine lat1 lon1 lat2 lon2
      else env.haversine lat1 lon1 lat2 lon2
    | _, _ => DEFAULT_DISTANCE

/-- The accumulation loop of `calculate_closest_distance`: `min_distance`
starts at `float('inf')` (modelled by `none`) and is lowered by every
numeric distance strictly below it. -/
def foldMin (ds : List ℚ) : Option ℚ :=
  ds.foldl (fun acc d =>
    match acc with
    | none => some d
    | some m => if d < m then some d else some m) none

/-- Embeds `DistanceCalculator.calculate_closest_distance`
(`src/src/core/distance.py` lines 100-121): empty inputs yield the
sentinel; otherwise the minimum of the per-site distances is taken (every
per-site failure already surfaced as the numeric sentinel inside
`_calculate_single_distance`, so the gathered list is all-numeric). -/
def calculateClosestDistance (env : GeoEnv) (patientZip : String)
    (siteZips : List String) : ℚ :=
  if patientZip = "" ∨ siteZips = [] then DEFAULT_DISTANCE
  else (foldMin (siteZips.map (calculateSingleDistance env patientZip))).getD
    DEFAULT_DISTANCE

/-! ## Python strings for the vocabulary matcher
(`src/src/utils/query_parser.py`)

`fuzzy_match_filter` normalises with `str.lower()` / `str.strip()`.
Python strings are modelled as lists of code points (`PyStr`), with the
ASCII fragment of Python's casing and whitespace rules, which covers the
vocabulary this service handles. -/

/-- A Python string, as a list of code points. -/
abbrev PyStr := List ℕ

/-- ASCII fragment of `str.lower` on one code point. -/
def lowerCode (n : ℕ) : ℕ := if 65 ≤ n ∧ n ≤ 90 then n + 32 else n

/-- ASCII fragment of `str.upper` on one code point. -/
def upperCode (n : ℕ) : ℕ := if 97 ≤ n ∧ n ≤ 122 then n - 32 else n

/-- Python `str.strip` whitespace: space, tab, LF, CR, VT, FF. -/
def isSpaceCode (n : ℕ) : Bool :=
  n = 32 || n = 9 || n = 10 || n = 13 || n = 11 || n = 12

/-- Python `str.lower` (ASCII fragment). -/
def pyLower (s : PyStr) : PyStr := s.map lowerCode

/-- Python `str.upper` (ASCII fragment). -/
def pyUpper (s : PyStr) : PyStr := s.map upperCode

/-- Python `str.strip`: drop leading and trailing whitespace. -/
def pyStrip (s : PyStr) : PyStr :=
  ((s.dropWhile isSpaceCode).reverse.dropWhile isSpaceCode).reverse

/-- The composite normalisation `term.lower().strip()` applied by
`fuzzy_match_filter` to the query term and to every dataset value. -/
def pyNorm (s : PyStr) : PyStr := pyStrip (pyLower s)

/-- Constant `Settings.FUZZY_MATCH_THRESHOLD` (`settings.py` line 36). -/
def FUZZY_MATCH_THRESHOLD : ℚ := 85

/-- Constant `Settings.FUZZY_MATCH_FALLBACK` (`settings.py` line 37). -/
def FUZZY_MATCH_FALLBACK : ℚ := 60

/-- The three `rapidfuzz` similarity scorers used by
`fuzzy_match_filter` (`fuzz.ratio`, `fuzz.partial_ratio`,
`fuzz.token_sort_ratio`), external real-valued functions on a 0-100
scale, captured as an environment. -/
structure SimEnv where
  sim : PyStr → PyStr → ℚ
  simPart : PyStr → PyStr → ℚ
  simTok : PyStr → PyStr → ℚ

/-- Embeds `fuzzy_match_filter` (`src/src/utils/query_parser.py` lines 45-80),
for a fixed list `vals` of the distinct non-null dataset values of the
column: normalise the term; return the first exactly-equal value alone;
else collect all values whose `fuzz.ratio` clears the 85 threshold; only
if that set is empty, collect the values clearing the 60 fallback
threshold under `fuzz.partial_ratio` or `fuzz.token_sort_ratio`. -/
def fuzzyMatchFilter (env : SimEnv) (term : PyStr) (vals : List PyStr) :
    List PyStr :=
  let q := pyNorm term
  match vals.find? (fun v => pyNorm v == q) with
  | some v => [v]
  | none =>
    let fuzzy := vals.filter
      (fun v => decide (FUZZY_MATCH_THRESHOLD ≤ env.sim q (pyNorm v)))
    if fuzzy.isEmpty then
      vals.filter (fun v =>
        decide (FUZZY_MATCH_FALLBACK ≤ env.simPart q (pyNorm v)) ||
        decide (FUZZY_MATCH_FALLBACK ≤ env.simTok q (pyNorm v)))
    else fuzzy

/-! ## Data model (`src/src/core/models.py`, dataset rows)

A row of the scored patient dataset, with the fields the pipeline reads
(`row.get(...)` on the loosely-typed dict; absent/null values are
`none`).  A row of the merged activity dataset carries the four columns
the scorer selects. -/

/-- One row of the scored patient dataset. -/
structure PatientRow where
  patientId : ℤ
  sex : Option String
  age : Option ℤ
  indication : Option String
  studyId : Option ℤ
  latestMilestone : Option String
  recencyPoints : Option ℤ
  recencyReason : Option String
  businessScore : ℤ
deriving Repr, DecidableEq

/-- One row of the merged activity dataset (columns used by scoring). -/
structure ActivityRow where
  category : Option String
  date : Option String
  indicationName : Option String
  postalCode : Option String
deriving Repr, DecidableEq

/-- One entry of the returned score breakdown. -/
structure BreakdownEntry where
  criterion : String
  reason : String
  points : ℤ
deriving Repr, DecidableEq

/-- The dict returned by `compute_score_with_breakdown_async`
(`scoring.py` lines 221-226); the two normalised fields are set to `0`
there and overwritten by the handler. -/
structure ScoreResult where
  totalBusinessScore : ℤ
  businessScoreNormalized : ℚ
  businessScorePercent : ℚ
  breakdown : List BreakdownEntry
deriving Repr, DecidableEq

/-- Keep the first occurrence of each element (the deterministic reading
of polars `.unique()` on a materialised column; only membership and the
first element are consumed downstream). -/
def firstDedup {α : Type} [DecidableEq α] : List α → List α
  | [] => []
  | a :: as => a :: firstDedup (as.filter (fun b => b ≠ a))
termination_by l => l.length
decreasing_by
  simp only [List.length_cons]
  have := List.length_filter_le (fun b => decide (b ≠ a)) as
  omega

/-- Scoring environment: the geocoding environment, `safe_date`
(`src/src/utils/helpers.py` lines 12-21, which tries the formats
`%m/%d/%Y`, `%Y-%m-%d`, `%d/%m/%Y` in order and yields `None` when all
fail), abstracted as a partial map from date strings to day indices, and
`datetime.today()` as a day index. -/
structure ScoreEnv where
  geo : GeoEnv
  safeDate : String → Option ℤ
  today : ℤ

/-- Numeric formatting placeholder for Python's `f"{x:.1f}"` style
interpolation inside reason strings; the exact decimal rendering is not
load-bearing for any property below. -/
def fmtQ (q : ℚ) : String := toString q

/-- Days-to-years conversion used twice in `scoring.py`:
`(today - parsed_date).days / 365.25`; `365.25 = 36525/100`. -/
def yearsSince (today d : ℤ) : ℚ := ((today - d : ℤ) : ℚ) / (36525 / 100)

/-- Criterion 1, "DIAGNOSIS RECENCY" (`scoring.py` lines 45-75): the
precomputed `recency_points` are awarded verbatim; the reason string
depends on the precomputed derivation tag and on the patient's
QUALIFIED RESPONDENTS activity dates. -/
def recencySection (env : ScoreEnv) (row : PatientRow)
    (acts : List ActivityRow) : ℤ × String :=
  let pts := row.recencyPoints.getD 0
  let rReason := row.recencyReason.getD "Unknown"
  let qualifiedDates :=
    (acts.filter (fun a => a.category == some "QUALIFIED RESPONDENTS")).filterMap
      (fun a => a.date)
  if pts > 0 ∧ rReason = "Diagnosis-based" then
    (pts, "Diagnosis temporal info: " ++ fmtQ ((50 - (pts : ℚ)) / 10) ++
      " years ago → " ++ toString pts ++ " points")
  else if pts > 0 ∧ rReason = "Recent Activity-based" then
    (pts, "Recent activity date = " ++ qualifiedDates.getLast?.getD "unknown date" ++
      " (~" ++ fmtQ ((50 - (pts : ℚ)) / 10) ++ " years ago) → " ++
      toString pts ++ " points")
  else if qualifiedDates ≠ [] then
    let lastQualified := qualifiedDates.getLast?.getD ""
    if lastQualified ≠ "" then
      match env.safeDate lastQualified with
      | some d =>
        (pts, "Missing diagnosis info; last \x27Qualified Respondents\x27 date = " ++
          lastQualified ++ " (~" ++ fmtQ (yearsSince env.today d) ++
          " years ago) → 0 points")
      | none =>
        (pts, "Missing diagnosis info; last \x27Qualified Respondents\x27 date = " ++
          lastQualified ++ " (unparseable) → 0 points")
    else
      (pts, "Missing diagnosis info; no qualified respondents activity → 0 points")
  else
    (pts, "Missing diagnosis info; no activity data available → 0 points")

/-- Criterion 2, "PPD SCREENING" (`scoring.py` lines 77-106): the
highest-priority activity category present wins,
RELEASED(40) > QUALIFIED RESPONDENTS(30) > RESPONDENTS(20) > none(0). -/
def screeningSection (acts : List ActivityRow) : ℤ × String :=
  let activities := firstDedup (acts.filterMap (fun a => a.category))
  let releasedDates :=
    (acts.filter (fun a => a.category == some "RELEASED")).filterMap (fun a => a.date)
  let qualifiedDates :=
    (acts.filter (fun a => a.category == some "QUALIFIED RESPONDENTS")).filterMap
      (fun a => a.date)
  let respondentsDates :=
    (acts.filter (fun a => a.category == some "RESPONDENTS")).filterMap (fun a => a.date)
  if "RELEASED" ∈ activities then
    (40, "Found \x27RELEASED\x27 activity (" ++
      releasedDates.getLast?.getD "unknown date" ++ ") → 40 points")
  else if "QUALIFIED RESPONDENTS" ∈ activities then
    (30, "Found \x27QUALIFIED RESPONDENTS\x27 activity (" ++
      qualifiedDates.getLast?.getD "unknown date" ++ ") → 30 points")
  else if "RESPONDENTS" ∈ activities then
    (20, "Found \x27RESPONDENTS\x27 activity (" ++
      respondentsDates.getLast?.getD "unknown date" ++ ") → 20 points")
  else (0, "No PPD screening record found → 0 points")

/-- Python `indication_scores[k] = max(indication_scores.get(k, 0), v)` on an
insertion-ordered association list (Python dict semantics). -/
def updMax (d : List (String × ℤ)) (k : String) (v : ℤ) : List (String × ℤ) :=
  if d.any (fun p => p.1 == k) then
    d.map (fun p => if p.1 == k then (p.1, max p.2 v) else p)
  else d ++ [(k, max 0 v)]

/-- The `indication_scores` dict of criterion 3 (`scoring.py` lines
110-133): per activity category, the distinct non-null indication names,
folded with priorities 40/30/20. -/
def similarScores (acts : List ActivityRow) : List (String × ℤ) :=
  let releasedInd := firstDedup
    ((acts.filter (fun a => a.category == some "RELEASED")).filterMap
      (fun a => a.indicationName))
  let qualifiedInd := firstDedup
    ((acts.filter (fun a => a.category == some "QUALIFIED RESPONDENTS")).filterMap
      (fun a => a.indicationName))
  let respondentInd := firstDedup
    ((acts.filter (fun a => a.category == some "RESPONDENTS")).filterMap
      (fun a => a.indicationName))
  let d := releasedInd.foldl (fun d i => updMax d i 40) []
  let d := qualifiedInd.foldl (fun d i => updMax d i 30) d
  respondentInd.foldl (fun d i => updMax d i 20) d

/-- Criterion 3, "SIMILAR STUDIES" (`scoring.py` lines 108-149): the sum
of the per-indication priority scores. -/
def similarSection (acts : List ActivityRow) : ℤ × String :=
  let scores := similarScores acts
  let pts := (scores.map (fun p => p.2)).sum
  let studyCount := scores.length
  if studyCount > 0 then
    let names := (scores.map (fun p => p.1)).take 3
    if studyCount ≤ 3 then
      (pts, toString studyCount ++ " indication(s) with priority scoring: " ++
        toString names ++ " → " ++ toString pts ++ " points")
    else
      (pts, toString studyCount ++ " indication(s) with priority scoring: " ++
        toString names ++ ", +" ++ toString (studyCount - 3) ++ " more → " ++
        toString pts ++ " points")
  else (pts, "0 indication(s) found → 0 points")

/-- The patient postal code used by criterion 4 (`scoring.py` lines
152-153): the first of the distinct non-null POSTAL_CODE values. -/
def patientZipOf (acts : List ActivityRow) : Option String :=
  ((firstDedup (acts.map (fun a => a.postalCode))).filterMap id).head?

/-- Criterion 4, "DISTANCE" (`scoring.py` lines 151-190): a literal
postal-code match short-circuits to distance `0.0`; otherwise the closest
distance is computed; the point ladder then reads
`0 → 20, <10 → 20, ≤50 → 15, ≤100 → 10, =999 → 0, else → 5`
(the `999` test is the sentinel comparison `distance == 999`). -/
def distanceSection (env : ScoreEnv) (acts : List ActivityRow)
    (siteZips : List String) : ℤ × String :=
  if siteZips ≠ [] then
    match patientZipOf acts with
    | some pz =>
      let distance : ℚ :=
        if pz ∈ siteZips then 0 else calculateClosestDistance env.geo pz siteZips
      if distance = 0 then
        (20, "Patient ZIP " ++ pz ++ ": Distance = " ++ fmtQ distance ++
          "km to closest site → 20 points (Exact match)")
      else if distance < 10 then
        (20, "Patient ZIP " ++ pz ++ ": Distance = " ++ fmtQ distance ++
          "km to closest site → 20 points (Very close)")
      else if distance ≤ 50 then
        (15, "Patient ZIP " ++ pz ++ ": Distance = " ++ fmtQ distance ++
          "km to closest site → 15 points (Moderate)")
      else if distance ≤ 100 then
        (10, "Patient ZIP " ++ pz ++ ": Distance = " ++ fmtQ distance ++
          "km to closest site → 10 points (Far)")
      else if distance = 999 then
        (0, "Patient ZIP " ++ pz ++ " → 0 points (Unable to calculate distance)")
      else
        (5, "Patient ZIP " ++ pz ++ ": Distance = " ++ fmtQ distance ++
          "km to closest site → 5 points (Very far)")
    | none =>
      (0, "Site zip codes provided but patient zip missing → 0 points (No patient location)")
  else
    (0, "No site zip codes provided → 0 points (Distance calculation not possible)")

/-- Code-point lexicographic comparison of character lists: the
ascending order polars uses on a Utf8 column (bytewise order, which for
the ASCII date strings at hand equals code-point order). -/
def lexLeB : List Char → List Char → Bool
  | [], _ => true
  | _ :: _, [] => false
  | a :: as, b :: bs =>
    if a.toNat < b.toNat then true
    else if b.toNat < a.toNat then false
    else lexLeB as bs

/-- Lexicographic comparison on strings. -/
def strLeB (a b : String) : Bool := lexLeB a.data b.data

/-- The RANDOMIZATION activity dates of criterion 5 (`scoring.py` lines
193-196): non-null values, sorted in the column's ascending
(lexicographic) order. -/
def randomizationDatesSorted (acts : List ActivityRow) : List String :=
  List.insertionSort (fun a b : String => strLeB a b = true)
    ((acts.filter (fun a => a.category == some "RANDOMIZATION")).filterMap
      (fun a => a.date))

/-- Criterion 5, "PAST QUALIFICATION" (`scoring.py` lines 192-218): the
last date in sort order is parsed; 25 points when it is at least
365.25 days old, 0 otherwise (too recent / unparseable / no
randomization history, each with its own reason). -/
def pastQualSection (env : ScoreEnv) (row : PatientRow)
    (acts : List ActivityRow) : ℤ × String :=
  let latestMilestone := row.latestMilestone.getD "Unknown"
  match (randomizationDatesSorted acts).getLast? with
  | some lastDate =>
    match env.safeDate lastDate with
    | some d =>
      if 1 ≤ yearsSince env.today d then
        (25, "Randomized on " ++ lastDate ++ " (" ++ fmtQ (yearsSince env.today d) ++
          " years ago) → 25 points")
      else
        (0, "Recently randomized on " ++ lastDate ++ " → excluded → 0 points")
    | none => (0, "Unparseable randomization date: " ++ lastDate ++ " → 0 points")
  | none => (0, "Latest milestone = " ++ latestMilestone ++ " → No randomization history")

/-- Embeds `compute_score_with_breakdown_async` (`src/src/core/scoring.py` lines
30-226), given the patient's activity rows (the `merged_df` rows with the
patient's id): the five criteria are evaluated in order, each appending
one breakdown entry and adding its points to the running total. -/
def computeScoreWithBreakdown (env : ScoreEnv) (row : PatientRow)
    (acts : List ActivityRow) (siteZips : List String) : ScoreResult :=
  let r1 := recencySection env row acts
  let r2 := screeningSection acts
  let r3 := similarSection acts
  let r4 := distanceSection env acts siteZips
  let r5 := pastQualSection env row acts
  { totalBusinessScore := 0 + r1.1 + r2.1 + r3.1 + r4.1 + r5.1
    businessScoreNormalized := 0
    businessScorePercent := 0
    breakdown := [⟨"Recency", r1.2, r1.1⟩, ⟨"PPD Screening", r2.2, r2.1⟩,
      ⟨"Similar Studies", r3.2, r3.1⟩, ⟨"Distance to Site", r4.2, r4.1⟩,
      ⟨"Past Qualification", r5.2, r5.1⟩] }

/-! ## Candidate filtering (`src/src/core/filtering.py`) -/

/-- The per-request filter dict built by `parse_query`; a `none` field is
an absent key. -/
structure FilterSet where
  sex : Option String := none
  ageMin : Option ℤ := none
  indication : Option (List String) := none
  exclude : Option (List String) := none
deriving Repr, DecidableEq

/-- The empty filter dict (`{}` in Python). -/
def FilterSet.empty : FilterSet := {}

/-- A '.' in a pattern matches any one character; every other character
matches itself.  This is the fragment of the Rust regex engine behind
polars `str.contains(pat, literal=False)` needed for the statements
below (patterns made of literal characters and the `.` metacharacter). -/
def matchesPfx : List Char → List Char → Bool
  | [], _ => true
  | _ :: _, [] => false
  | p :: ps, c :: cs => (p == '.' || p == c) && matchesPfx ps cs

/-- Unanchored regex search: does the pattern match at some position? -/
def regexSearchAux (p : List Char) : List Char → Bool
  | [] => matchesPfx p []
  | c :: cs => matchesPfx p (c :: cs) || regexSearchAux p cs

/-- polars `str.contains(pat, literal=False)`: unanchored regex search of
`pat` (literal-and-dot fragment) in `s`. -/
def regexSearch (pat s : String) : Bool := regexSearchAux pat.data s.data

/-- Embeds `_apply_sex_filter` (`filtering.py` lines 68-73); a null `sex` column
value compares as null and is dropped. -/
def applySexFilter (rows : List PatientRow) (sex : String) : List PatientRow :=
  rows.filter (fun r => r.sex == some sex)

/-- Embeds `_apply_age_filter` (`filtering.py` lines 75-80). -/
def applyAgeFilter (rows : List PatientRow) (ageMin : ℤ) : List PatientRow :=
  rows.filter (fun r => match r.age with
    | some a => decide (ageMin ≤ a)
    | none => false)

/-- Embeds `_apply_indication_filter` (`filtering.py` lines 82-96): keep rows
whose indication equals some synonym exactly (OR across the list); an
empty list builds no condition and keeps everything. -/
def applyIndicationFilter (rows : List PatientRow) (indications : List String) :
    List PatientRow :=
  if indications = [] then rows
  else rows.filter (fun r => indications.any (fun syn => r.indication == some syn))

/-- Embeds `_apply_exclusion_filter` (`filtering.py` lines 98-112): drop rows
whose indication matches some synonym under `str.contains(syn,
literal=False)` (OR across the list, then negated); a null indication
yields a null condition and the row is dropped by `filter(~cond)`; an
empty list keeps everything. -/
def applyExclusionFilter (rows : List PatientRow) (exclusions : List String) :
    List PatientRow :=
  if exclusions = [] then rows
  else rows.filter (fun r => match r.indication with
    | some ind => !(exclusions.any (fun syn => regexSearch syn ind))
    | none => false)

/-- The filter application sequence of `filter_patients_async`
(`filtering.py` lines 17-34); the exclusion filter runs only when the
`exclude` entry is present and truthy (non-empty). -/
def applyFilters (fs : FilterSet) (rows : List PatientRow) : List PatientRow :=
  let r1 := match fs.sex with
    | some s => applySexFilter rows s
    | none => rows
  let r2 := match fs.ageMin with
    | some a => applyAgeFilter r1 a
    | none => r1
  let r3 := match fs.indication with
    | some ts => applyIndicationFilter r2 ts
    | none => r2
  match fs.exclude with
  | some ts => if ts = [] then r3 else applyExclusionFilter r3 ts
  | none => r3

/-- Descending sort by the precomputed `business_score`
(`filtering.py` lines 38 and 59). -/
def sortByScoreDesc (rows : List PatientRow) : List PatientRow :=
  List.insertionSort (fun a b => b.businessScore ≤ a.businessScore) rows

/-- Models `group_by("PATIENT_ID").first()` on a materialised row list: keep the
first row of each patient id. -/
def dedupByPatientId : List PatientRow → List PatientRow
  | [] => []
  | r :: rs => r :: dedupByPatientId (rs.filter (fun x => x.patientId ≠ r.patientId))
termination_by l => l.length
decreasing_by
  simp only [List.length_cons]
  have := List.length_filter_le (fun x => decide (x.patientId ≠ r.patientId)) rs
  omega

/-- Embeds `filter_patients_async` (`src/src/core/filtering.py` lines 10-66):
filter, deduplicate keeping the highest `business_score` per patient id
(sort descending, keep first per id), re-sort descending, and truncate to
`top_k` when given.  The `query_normalized_score` column computed at
lines 46-57 is carried in the returned dicts but consumed by no later
step, so it is not modelled. -/
def filterPatients (fs : FilterSet) (rows : List PatientRow)
    (topK : Option ℕ) : List PatientRow :=
  let filtered := applyFilters fs rows
  let deduped := dedupByPatientId (sortByScoreDesc filtered)
  let final := sortByScoreDesc deduped
  match topK with
  | none => final
  | some k => final.take k

/-! ## Query parsing (`src/src/utils/query_parser.py`)

The four `re` scans of `parse_query` and the vocabulary resolution
against the loaded dataset are captured as an environment of extractor
functions; the branch structure of `parse_query` itself is embedded. -/

/-- Extractors for `parse_query`: `findSex` models
`re.search(r"(Female|Male)", q, IGNORECASE)` returning the matched word;
`findAgeMin` models the `age >= N` scan returning the captured integer;
`findTarget` and `findExclusion` model the `Target:` / `EXCLUSION:`
segment scans returning the stripped captured segment; `stripDemo`
models the demographic-fragment removal applied to the target segment;
`resolveVocab` models `fuzzy_match_filter(term, "indication")` against
the loaded dataset. -/
structure ParseEnv where
  findSex : String → Option String
  findAgeMin : String → Option ℤ
  findTarget : String → Option String
  findExclusion : String → Option String
  stripDemo : String → String
  resolveVocab : String → List String

/-- Python `sex_match.group(1)[0].upper()`: the upper-cased first character. -/
def firstUpper (s : String) : String :=
  match s.data with
  | [] => ""
  | c :: _ => String.mk [c.toUpper]

/-- Embeds `parse_query` (`src/src/utils/query_parser.py` lines 11-43): an empty
or null query yields the empty filter dict before any scan runs;
otherwise the four independent scans populate their entries. -/
def parseQuery (env : ParseEnv) (query : Option String) : FilterSet :=
  match query with
  | none => FilterSet.empty
  | some q =>
    if q.trim = "" then FilterSet.empty
    else
      { sex := (env.findSex q).map firstUpper
        ageMin := env.findAgeMin q
        indication := (env.findTarget q).map
          (fun t => env.resolveVocab (env.stripDemo t))
        exclude := (env.findExclusion q).map (fun e => env.resolveVocab e) }

/-! ## Ranking normalisation (`src/src/api/handlers.py` lines 96-118)

The handler sorts the scored results descending by the recomputed total,
reads the maximum off the first and the minimum off the last entry, and
assigns each result its `match_score_percent`,
`business_score_normalized` and `business_score_percent`. -/

/-- Descending sort of the integer totals. -/
def sortDescInt (scores : List ℤ) : List ℤ :=
  List.insertionSort (fun a b : ℤ => b ≤ a) scores

/-- Per-result assignment (`handlers.py` lines 104-114): with
`max > min`, the linear rescale of the score, rounded; otherwise the
constant `100%` triple.  The triple is `(match_score_percent,
business_score_normalized, business_score_percent)`. -/
def normalizeTriple (mx mn s : ℚ) : ℚ × ℚ × ℚ :=
  if mn < mx then
    (pyRound ((s - mn) / (mx - mn) * 100) 2,
     pyRound ((s - mn) / (mx - mn)) 4,
     pyRound ((s - mn) / (mx - mn) * 100) 2)
  else (100, 1, 100)

/-- The normalisation step of `query_patients` on the list of recomputed
totals: sort descending, take `max_score` from the head and `min_score`
from the last element, and assign every result its triple. -/
def normalizeResults (scores : List ℤ) : List (ℚ × ℚ × ℚ) :=
  match sortDescInt scores with
  | [] => []
  | a :: rest =>
    let mx : ℚ := (a : ℚ)
    let mn : ℚ := (((a :: rest).getLast (List.cons_ne_nil a rest) : ℤ) : ℚ)
    (a :: rest).map (fun s : ℤ => normalizeTriple mx mn (s : ℚ))

/-! ## Concrete environments and rows used in closed statements -/

/-- A geocoding environment in which no postal code resolves (garbage
codes); `pgeocode` then yields no coordinates for any country. -/
def geoEnvUnresolved : GeoEnv where
  resolve := fun _ => none
  geoDist := fun _ _ _ => none
  haversine := fun _ _ _ _ => 0

/-- A geocoding environment resolving exactly one code, with all
computed distances equal to 7 km. -/
def geoEnvOneCode : GeoEnv where
  resolve := fun s => if s = "11111" then some ("US", 1, 2) else none
  geoDist := fun _ _ _ => none
  haversine := fun _ _ _ _ => 7

/-- A geocoding environment where the patient code "P1" and the site
code "S2" resolve (same country) with native distance 5000 km, while the
site code "S1" does not resolve. -/
def geoEnvFarSite : GeoEnv where
  resolve := fun s =>
    if s = "P1" then some ("US", 0, 0)
    else if s = "S2" then some ("US", 1, 1) else none
  geoDist := fun _ a b => if a = "P1" ∧ b = "S2" then some 5000 else none
  haversine := fun _ _ _ _ => 5000

/-- Scoring environment around `geoEnvFarSite` (dates never parse). -/
def scoreEnvFarSite : ScoreEnv where
  geo := geoEnvFarSite
  safeDate := fun _ => none
  today := 0

/-- One activity row carrying only the patient postal code "P1". -/
def actsSingleZip : List ActivityRow := [⟨none, none, none, some "P1"⟩]

/-- Scoring environment with `today` = day 20373 (2025-10-12) and
`safe_date` resolving the two m/d/Y strings used below:
"02/01/2025" (day 20120) and "12/31/2010" (day 14974). -/
def scoreEnvDates : ScoreEnv where
  geo := geoEnvUnresolved
  safeDate := fun s =>
    if s = "02/01/2025" then some 20120
    else if s = "12/31/2010" then some 14974 else none
  today := 20373

/-- Two RANDOMIZATION activities: a recent one (February 2025) and an
old one (December 2010), in m/d/Y string form. -/
def actsTwoRand : List ActivityRow :=
  [⟨some "RANDOMIZATION", some "02/01/2025", none, none⟩,
   ⟨some "RANDOMIZATION", some "12/31/2010", none, none⟩]

/-- A single old RANDOMIZATION activity. -/
def actsOneOld : List ActivityRow :=
  [⟨some "RANDOMIZATION", some "12/31/2010", none, none⟩]

/-- A patient row with no optional data. -/
def rowBlank : PatientRow :=
  ⟨0, none, none, none, none, none, none, none, 0⟩

/-- A patient row whose indication is the three-character string "aXb". -/
def rowAXB : PatientRow :=
  ⟨1, none, none, some "aXb", none, none, none, none, 0⟩

/-- Two rows sharing patient id 1 with business scores 1 and 5. -/
def rowsDupId : List PatientRow :=
  [⟨1, none, none, none, none, none, none, none, 1⟩,
   ⟨1, none, none, none, none, none, none, none, 5⟩]

/-- A parse environment whose extractors never match (their behaviour is
irrelevant to the empty-query branch). -/
def parseEnvTrivial : ParseEnv where
  findSex := fun _ => none
  findAgeMin := fun _ => none
  findTarget := fun _ => none
  findExclusion := fun _ => none
  stripDemo := fun s => s
  resolveVocab := fun _ => []

/-- Similarity environment with `fuzz.ratio` constantly 90 and the two
fallback scorers constantly 0. -/
def simEnvConst : SimEnv where
  sim := fun _ _ => 90
  simPart := fun _ _ => 0
  simTok := fun _ _ => 0

/-- The point ladder of the distance criterion as a function of the
computed distance value alone, as the specification words it (with the
value 999 read as the unknown sentinel). -/
def distancePointsOf (d : ℚ) : ℤ :=
  if d = 0 then 20
  else if d < 10 then 20
  else if d ≤ 50 then 15
  else if d ≤ 100 then 10
  else if d = 999 then 0
  else 5

/-- The per-site minimum the specification describes for the distance
criterion: unresolved site codes are excluded from the minimum, and the
result is `none` when no site resolves.  This follows the spec text, for
comparison against `calculateClosestDistance`. -/
def specMinResolvedDistance (env : GeoEnv) (patientZip : String)
    (siteZips : List String) : Option ℚ :=
  foldMin ((siteZips.filter (fun s => (env.resolve s).isSome)).map
    (calculateSingleDistance env patientZip))

/-! ## Helper instances and lemmas -/

instance : IsTotal PatientRow (fun a b => b.businessScore ≤ a.businessScore) :=
  ⟨fun a b => le_total b.businessScore a.businessScore⟩

instance : IsTrans PatientRow (fun a b => b.businessScore ≤ a.businessScore) :=
  ⟨fun _ _ _ h h2 => le_trans h2 h⟩

instance : IsTotal ℤ (fun a b : ℤ => b ≤ a) := ⟨fun a b => le_total b a⟩

instance : IsTrans ℤ (fun a b : ℤ => b ≤ a) := ⟨fun _ _ _ h h2 => le_trans h2 h⟩

/-- Lexicographic comparison is reflexive. -/
theorem lexLeB_refl : ∀ l : List Char, lexLeB l l = true := by
  intro l
  induction l with
  | nil => rfl
  | cons a as ih => simp [lexLeB, ih]

/-- Lexicographic comparison is total. -/
theorem lexLeB_total : ∀ as bs : List Char, lexLeB as bs = true ∨ lexLeB bs as = true := by
  intro as
  induction as with
  | nil => intro bs; left; rfl
  | cons a as ih =>
    intro bs
    cases bs with
    | nil => right; rfl
    | cons b bs =>
      by_cases hab : a.toNat < b.toNat
      · left
        simp [lexLeB, hab]
      · by_cases hba : b.toNat < a.toNat
        · right
          simp [lexLeB, hba]
        · rcases ih bs with h | h
          · left
            simpa [lexLeB, hab, hba] using h
          · right
            simpa [lexLeB, hab, hba] using h

/-- Lexicographic comparison is transitive. -/
theorem lexLeB_trans : ∀ as bs cs : List Char,
    lexLeB as bs = true → lexLeB bs cs = true → lexLeB as cs = true := by
  intro as
  induction as with
  | nil => intro bs cs _ _; rfl
  | cons a as ih =>
    intro bs cs h1 h2
    cases bs with
    | nil => simp [lexLeB] at h1
    | cons b bs =>
      cases cs with
      | nil => simp [lexLeB] at h2
      | cons c cs =>
        by_cases hab : a.toNat < b.toNat
        · by_cases hbc : b.toNat < c.toNat
          · simp [lexLeB, show a.toNat < c.toNat by omega]
          · by_cases hcb : c.toNat < b.toNat
            · simp [lexLeB, hbc, hcb] at h2
            · simp [lexLeB, show a.toNat < c.toNat by omega]
        · by_cases hba : b.toNat < a.toNat
          · simp [lexLeB, hab, hba] at h1
          · by_cases hbc : b.toNat < c.toNat
            · simp [lexLeB, show a.toNat < c.toNat by omega]
            · by_cases hcb : c.toNat < b.toNat
              · simp [lexLeB, hbc, hcb] at h2
              · have h1x : lexLeB as bs = true := by
                  simpa [lexLeB, hab, hba] using h1
                have h2x : lexLeB bs cs = true := by
                  simpa [lexLeB, hbc, hcb] using h2
                simpa [lexLeB, show ¬ a.toNat < c.toNat by omega,
                  show ¬ c.toNat < a.toNat by omega] using ih bs cs h1x h2x

instance : IsTotal String (fun a b => strLeB a b = true) :=
  ⟨fun a b => lexLeB_total a.data b.data⟩

instance : IsTrans String (fun a b => strLeB a b = true) :=
  ⟨fun a b c => lexLeB_trans a.data b.data c.data⟩

/-- In a sorted list, every element is related to the last element (or is
it). -/
theorem rel_getLast_of_sorted {α : Type} {r : α → α → Prop} [IsTrans α r] :
    ∀ {l : List α}, l.Sorted r → ∀ h : l ≠ [], ∀ x ∈ l,
      x = l.getLast h ∨ r x (l.getLast h) := by
  intro l
  induction l with
  | nil => intro _ h; exact absurd rfl h
  | cons a t ih =>
    intro hs h x hx
    cases t with
    | nil =>
      left
      simp only [List.mem_singleton] at hx
      simp [hx]
    | cons b t2 =>
      rw [List.getLast_cons (by simp)]
      rcases List.mem_cons.mp hx with rfl | hx2
      · right
        have ha := (List.sorted_cons.mp hs).1
        exact ha _ (List.getLast_mem (by simp))
      · exact ih (List.sorted_cons.mp hs).2 (by simp) x hx2

/-- Unfolding equation for `dedupByPatientId` on a cons cell. -/
theorem dedupByPatientId_cons (r : PatientRow) (rs : List PatientRow) :
    dedupByPatientId (r :: rs) =
      r :: dedupByPatientId (rs.filter (fun x => x.patientId ≠ r.patientId)) := by
  rw [dedupByPatientId]

/-- The filtered tail is no longer than the tail. -/
theorem length_filter_ne_le (r : PatientRow) (rs : List PatientRow) :
    (rs.filter (fun x => x.patientId ≠ r.patientId)).length ≤ rs.length :=
  List.length_filter_le _ rs

/-- Fuel-indexed version: deduplication only keeps rows of the input. -/
theorem mem_of_mem_dedup_fuel :
    ∀ (n : ℕ) (l : List PatientRow), l.length ≤ n →
      ∀ {x : PatientRow}, x ∈ dedupByPatientId l → x ∈ l := by
  intro n
  induction n with
  | zero =>
    intro l hl x hx
    cases l with
    | nil => simp [dedupByPatientId] at hx
    | cons r rs => simp at hl
  | succ n ih =>
    intro l hl x hx
    cases l with
    | nil => simp [dedupByPatientId] at hx
    | cons r rs =>
      rw [dedupByPatientId_cons] at hx
      rcases List.mem_cons.mp hx with rfl | hx2
      · exact List.mem_cons_self _ _
      · have hlen : (rs.filter (fun x => x.patientId ≠ r.patientId)).length ≤ n := by
          have := length_filter_ne_le r rs
          simp only [List.length_cons] at hl
          omega
        exact List.mem_cons_of_mem _
          (List.mem_of_mem_filter (ih _ hlen hx2))

/-- Deduplication only keeps rows of the input. -/
theorem mem_of_mem_dedupByPatientId {l : List PatientRow} {x : PatientRow}
    (hx : x ∈ dedupByPatientId l) : x ∈ l :=
  mem_of_mem_dedup_fuel l.length l (le_refl _) hx

/-- Fuel-indexed count: after deduplication each patient id present in
the input appears in exactly one row. -/
theorem countP_dedup_fuel (pid : ℤ) :
    ∀ (n : ℕ) (l : List PatientRow), l.length ≤ n →
      (dedupByPatientId l).countP (fun r => r.patientId == pid) =
        if l.any (fun r => r.patientId == pid) then 1 else 0 := by
  intro n
  induction n with
  | zero =>
    intro l hl
    cases l with
    | nil => simp [dedupByPatientId]
    | cons r rs => simp at hl
  | succ n ih =>
    intro l hl
    cases l with
    | nil => simp [dedupByPatientId]
    | cons r rs =>
      have hlen : (rs.filter (fun x => x.patientId ≠ r.patientId)).length ≤ n := by
        have := length_filter_ne_le r rs
        simp only [List.length_cons] at hl
        omega
      rw [dedupByPatientId_cons, List.countP_cons, ih _ hlen]
      by_cases hr : r.patientId = pid
      · have hnone : (rs.filter (fun x => x.patientId ≠ r.patientId)).any
            (fun x => x.patientId == pid) = false := by
          simp only [List.any_filter]
          rw [List.any_eq_false]
          intro x _
          by_cases hx : x.patientId = pid
          · simp [hx, hr]
          · simp [hx]
        simp [hnone, hr]
      · have hpt : ∀ x : PatientRow,
            (decide (x.patientId ≠ r.patientId) && (x.patientId == pid)) =
              (x.patientId == pid) := by
          intro x
          by_cases hx : x.patientId = pid
          · have hne : x.patientId ≠ r.patientId := by
              intro h
              exact hr (by rw [← h, hx])
            rw [hx] at hne
            simp [hx, hne]
          · simp [hx]
        have hsame : (rs.filter (fun x => x.patientId ≠ r.patientId)).any
            (fun x => x.patientId == pid) =
              rs.any (fun x => x.patientId == pid) := by
          simp only [List.any_filter]
          simp only [hpt]
        simp only [hsame, List.any_cons]
        simp [hr]

/-- After deduplication each patient id present in the input appears in
exactly one row. -/
theorem countP_dedupByPatientId (pid : ℤ) (l : List PatientRow) :
    (dedupByPatientId l).countP (fun r => r.patientId == pid) =
      if l.any (fun r => r.patientId == pid) then 1 else 0 :=
  countP_dedup_fuel pid l.length l (le_refl _)

/-- Fuel-indexed maximality: on a list sorted descending by business
score, the surviving row of a patient id has the maximum business score
among the rows with that id. -/
theorem score_le_dedup_fuel :
    ∀ (n : ℕ) (l : List PatientRow), l.length ≤ n →
      l.Sorted (fun a b => b.businessScore ≤ a.businessScore) →
      ∀ x ∈ dedupByPatientId l, ∀ s ∈ l, s.patientId = x.patientId →
        s.businessScore ≤ x.businessScore := by
  intro n
  induction n with
  | zero =>
    intro l hl _ x hx s hs _
    cases l with
    | nil => simp at hs
    | cons r rs => simp at hl
  | succ n ih =>
    intro l hl hsort x hx s hsmem hpid
    cases l with
    | nil => simp at hsmem
    | cons r rs =>
      have hlen : (rs.filter (fun x => x.patientId ≠ r.patientId)).length ≤ n := by
        have := length_filter_ne_le r rs
        simp only [List.length_cons] at hl
        omega
      rw [dedupByPatientId_cons] at hx
      rcases List.mem_cons.mp hx with rfl | hx2
      · rcases List.mem_cons.mp hsmem with rfl | hs2
        · exact le_refl _
        · exact (List.sorted_cons.mp hsort).1 s hs2
      · have hxf := mem_of_mem_dedupByPatientId hx2
        have hxne : x.patientId ≠ r.patientId := by
          have := List.of_mem_filter hxf
          simpa using this
        rcases List.mem_cons.mp hsmem with rfl | hs2
        · exact absurd hpid.symm hxne
        · have hsf : s ∈ rs.filter (fun x => x.patientId ≠ r.patientId) :=
            List.mem_filter.mpr ⟨hs2, by simpa using hpid ▸ hxne⟩
          have hsorted : (rs.filter (fun x => x.patientId ≠ r.patientId)).Sorted
              (fun a b => b.businessScore ≤ a.businessScore) :=
            ((List.sorted_cons.mp hsort).2).filter _
          exact ih _ hlen hsorted x hx2 s hsf hpid

/-- On a list sorted descending by business score, the surviving row of a
patient id has the maximum business score among the rows with that id. -/
theorem score_le_of_mem_dedupByPatientId {l : List PatientRow}
    (hsort : l.Sorted (fun a b => b.businessScore ≤ a.businessScore))
    {x : PatientRow} (hx : x ∈ dedupByPatientId l) :
    ∀ s ∈ l, s.patientId = x.patientId → s.businessScore ≤ x.businessScore :=
  score_le_dedup_fuel l.length l (le_refl _) hsort x hx

/-- Fuel-indexed id preservation: every patient id of the input survives
deduplication. -/
theorem exists_mem_dedup_fuel :
    ∀ (n : ℕ) (l : List PatientRow), l.length ≤ n →
      ∀ r ∈ l, ∃ x ∈ dedupByPatientId l, x.patientId = r.patientId := by
  intro n
  induction n with
  | zero =>
    intro l hl r hr
    cases l with
    | nil => simp at hr
    | cons a as => simp at hl
  | succ n ih =>
    intro l hl r hr
    cases l with
    | nil => simp at hr
    | cons a as =>
      have hlen : (as.filter (fun x => x.patientId ≠ a.patientId)).length ≤ n := by
        have := length_filter_ne_le a as
        simp only [List.length_cons] at hl
        omega
      rw [dedupByPatientId_cons]
      rcases List.mem_cons.mp hr with rfl | hr2
      · exact ⟨r, List.mem_cons_self _ _, rfl⟩
      · by_cases hid : r.patientId = a.patientId
        · exact ⟨a, List.mem_cons_self _ _, hid.symm⟩
        · have hrf : r ∈ as.filter (fun x => x.patientId ≠ a.patientId) :=
            List.mem_filter.mpr ⟨hr2, by simpa using hid⟩
          obtain ⟨x, hx, hxe⟩ := ih _ hlen r hrf
          exact ⟨x, List.mem_cons_of_mem _ hx, hxe⟩

/-- Every patient id of the input survives deduplication. -/
theorem exists_mem_dedupByPatientId {l : List PatientRow} {r : PatientRow}
    (hr : r ∈ l) : ∃ x ∈ dedupByPatientId l, x.patientId = r.patientId :=
  exists_mem_dedup_fuel l.length l (le_refl _) r hr

/-- Lower-casing an upper-cased code point equals lower-casing it
directly. -/
theorem lowerCode_upperCode (n : ℕ) : lowerCode (upperCode n) = lowerCode n := by
  unfold lowerCode upperCode
  split_ifs <;> omega

/-- Lower-casing is idempotent. -/
theorem lowerCode_lowerCode (n : ℕ) : lowerCode (lowerCode n) = lowerCode n := by
  unfold lowerCode
  split_ifs <;> omega

/-- Whitespace code points are unchanged by lower-casing. -/
theorem lowerCode_of_space {n : ℕ} (h : isSpaceCode n = true) : lowerCode n = n := by
  have h2 : n ≤ 32 := by
    simp only [isSpaceCode, Bool.or_eq_true, decide_eq_true_eq] at h
    omega
  unfold lowerCode
  split_ifs with h3
  · omega
  · rfl

/-- Dropping while `p` skips over an all-`p` segment. -/
theorem dropWhile_append_of_all {α : Type} (p : α → Bool) :
    ∀ (l₁ l₂ : List α), (∀ c ∈ l₁, p c = true) →
      (l₁ ++ l₂).dropWhile p = l₂.dropWhile p := by
  intro l₁
  induction l₁ with
  | nil => intro l₂ _; simp
  | cons a t ih =>
    intro l₂ h
    have ha : p a = true := h a (List.mem_cons_self _ _)
    simp only [List.cons_append, List.dropWhile_cons_of_pos ha]
    exact ih l₂ (fun c hc => h c (List.mem_cons_of_mem _ hc))

/-- Dropping while `p` empties an all-`p` list. -/
theorem dropWhile_eq_nil_of_all {α : Type} (p : α → Bool) (l : List α)
    (h : ∀ c ∈ l, p c = true) : l.dropWhile p = [] := by
  have := dropWhile_append_of_all p l [] h
  simpa using this

/-- When the first block does not drop away entirely, `dropWhile` stops
inside it. -/
theorem dropWhile_append_of_ne_nil {α : Type} (p : α → Bool) :
    ∀ (l₁ l₂ : List α), l₁.dropWhile p ≠ [] →
      (l₁ ++ l₂).dropWhile p = l₁.dropWhile p ++ l₂ := by
  intro l₁
  induction l₁ with
  | nil => intro l₂ h; exact absurd rfl h
  | cons a t ih =>
    intro l₂ h
    by_cases ha : p a = true
    · rw [List.dropWhile_cons_of_pos ha] at h
      simp only [List.cons_append, List.dropWhile_cons_of_pos ha,
        List.dropWhile_cons_of_pos ha, ih l₂ h]
    · have ha2 : ¬ p a = true := ha
      simp only [List.cons_append, List.dropWhile_cons_of_neg ha2,
        List.dropWhile_cons_of_neg ha2]

/-- Stripping removes surrounding whitespace completely. -/
theorem pyStrip_sandwich (a t b : PyStr) (ha : ∀ c ∈ a, isSpaceCode c = true)
    (hb : ∀ c ∈ b, isSpaceCode c = true) : pyStrip (a ++ t ++ b) = pyStrip t := by
  unfold pyStrip
  rw [List.append_assoc, dropWhile_append_of_all _ a _ ha]
  by_cases ht : t.dropWhile isSpaceCode = []
  · have htall : ∀ c ∈ t, isSpaceCode c = true := by
      intro c hc
      exact List.dropWhile_eq_nil_iff.mp ht c hc
    have htb : (t ++ b).dropWhile isSpaceCode = [] := by
      apply dropWhile_eq_nil_of_all
      intro c hc
      rcases List.mem_append.mp hc with h | h
      · exact htall c h
      · exact hb c h
    rw [htb, ht]
  · rw [dropWhile_append_of_ne_nil _ _ _ ht]
    rw [List.reverse_append]
    rw [dropWhile_append_of_all _ b.reverse _ (by
      intro c hc
      exact hb c (List.mem_reverse.mp hc))]

/-- Normalisation ignores surrounding whitespace. -/
theorem pyNorm_sandwich (a t b : PyStr) (ha : ∀ c ∈ a, isSpaceCode c = true)
    (hb : ∀ c ∈ b, isSpaceCode c = true) : pyNorm (a ++ t ++ b) = pyNorm t := by
  unfold pyNorm pyLower
  rw [List.map_append, List.map_append]
  have hma : a.map lowerCode = a := by
    rw [List.map_congr_left (fun c hc => lowerCode_of_space (ha c hc))]
    exact List.map_id a
  have hmb : b.map lowerCode = b := by
    rw [List.map_congr_left (fun c hc => lowerCode_of_space (hb c hc))]
    exact List.map_id b
  rw [hma, hmb]
  exact pyStrip_sandwich a _ b ha hb

/-- Normalisation ignores upper-casing. -/
theorem pyNorm_pyUpper (t : PyStr) : pyNorm (pyUpper t) = pyNorm t := by
  unfold pyNorm pyLower pyUpper
  rw [List.map_map]
  congr 1
  exact List.map_congr_left (fun c _ => lowerCode_upperCode c)

/-- Normalisation ignores lower-casing. -/
theorem pyNorm_pyLower (t : PyStr) : pyNorm (pyLower t) = pyNorm t := by
  unfold pyNorm pyLower
  rw [List.map_map]
  congr 1
  exact List.map_congr_left (fun c _ => lowerCode_lowerCode c)

/-- Resolution via `fuzzy_match_filter` depends on its term only through the
normalisation. -/
theorem fuzzyMatchFilter_congr (env : SimEnv) {s t : PyStr}
    (h : pyNorm s = pyNorm t) (vals : List PyStr) :
    fuzzyMatchFilter env s vals = fuzzyMatchFilter env t vals := by
  simp only [fuzzyMatchFilter, h]

/-- Dot-free pattern matching at the head is list-prefix matching. -/
theorem matchesPfx_iff {p : List Char} (hp : '.' ∉ p) :
    ∀ {s : List Char}, matchesPfx p s = true ↔ p <+: s := by
  induction p with
  | nil => intro s; simp [matchesPfx, List.nil_prefix]
  | cons x ps ih =>
    intro s
    have hx : x ≠ '.' := fun h => hp (h ▸ List.mem_cons_self _ _)
    have hps : '.' ∉ ps := fun h => hp (List.mem_cons_of_mem _ h)
    cases s with
    | nil =>
      simp only [matchesPfx]
      constructor
      · intro h; exact absurd h (by simp)
      · intro h
        exact absurd (List.prefix_nil.mp h) (by simp)
    | cons c cs =>
      simp only [matchesPfx, Bool.and_eq_true, Bool.or_eq_true, beq_iff_eq,
        List.cons_prefix_cons, ih hps]
      constructor
      · rintro ⟨hd | hd, hrest⟩
        · exact absurd hd hx
        · exact ⟨hd, hrest⟩
      · rintro ⟨hd, hrest⟩
        exact ⟨Or.inr hd, hrest⟩

/-- Dot-free unanchored search finds a prefix of some suffix. -/
theorem regexSearchAux_iff {p : List Char} (hp : '.' ∉ p) :
    ∀ {s : List Char}, regexSearchAux p s = true ↔ ∃ t, t <:+ s ∧ p <+: t := by
  intro s
  induction s with
  | nil =>
    simp only [regexSearchAux, matchesPfx_iff hp]
    constructor
    · intro h; exact ⟨[], List.suffix_refl _, h⟩
    · rintro ⟨t, ht, hpt⟩
      rw [List.suffix_nil.mp ht] at hpt
      exact hpt
  | cons c cs ih =>
    simp only [regexSearchAux, Bool.or_eq_true, matchesPfx_iff hp, ih]
    constructor
    · rintro (h | ⟨t, ht, hpt⟩)
      · exact ⟨c :: cs, List.suffix_refl _, h⟩
      · exact ⟨t, (List.suffix_cons_iff).mpr (Or.inr ht), hpt⟩
    · rintro ⟨t, ht, hpt⟩
      rcases (List.suffix_cons_iff).mp ht with rfl | ht2
      · exact Or.inl hpt
      · exact Or.inr ⟨t, ht2, hpt⟩

/-- For patterns without the `.` metacharacter, regex search is exactly
substring containment. -/
theorem regexSearch_iff_substr {pat s : String} (hp : '.' ∉ pat.data) :
    regexSearch pat s = true ↔ pat.data <:+: s.data := by
  rw [regexSearch, regexSearchAux_iff hp, List.infix_iff_prefix_suffix]
  constructor
  · rintro ⟨t, ht, hpt⟩; exact ⟨t, hpt, ht⟩
  · rintro ⟨t, hpt, ht⟩; exact ⟨t, ht, hpt⟩

/-- Half-even rounding fixes integers. -/
theorem roundHalfEven_intCast (z : ℤ) : roundHalfEven (z : ℚ) = z := by
  unfold roundHalfEven
  rw [Int.floor_intCast]
  simp only [sub_self]
  norm_num

/-- Python `round(100, 2)` is `100`. -/
theorem pyRound_hundred : pyRound (100 : ℚ) 2 = 100 := by
  unfold pyRound
  have h : (100 : ℚ) * 10 ^ 2 = ((10000 : ℤ) : ℚ) := by norm_num
  rw [h, roundHalfEven_intCast]
  norm_num

/-- Python `round(1, 4)` is `1`. -/
theorem pyRound_one : pyRound (1 : ℚ) 4 = 1 := by
  unfold pyRound
  have h : (1 : ℚ) * 10 ^ 4 = ((10000 : ℤ) : ℚ) := by norm_num
  rw [h, roundHalfEven_intCast]
  norm_num

/-- Python `round(0, n)` is `0`. -/
theorem pyRound_zero (n : ℕ) : pyRound (0 : ℚ) n = 0 := by
  unfold pyRound
  have h : (0 : ℚ) * 10 ^ n = ((0 : ℤ) : ℚ) := by norm_num
  rw [h, roundHalfEven_intCast]
  norm_num

/-- Rounding at two decimals after scaling by 100 is the scaled rounding
at four decimals. -/
theorem pyRound_mul_100 (q : ℚ) : pyRound (q * 100) 2 = 100 * pyRound q 4 := by
  unfold pyRound
  have h : q * 100 * 10 ^ 2 = q * 10 ^ 4 := by ring
  rw [h]
  field_simp
  ring

/-! ## Claim theorems -/

/-- Claim C1: for every patient row, activity history, site code list and
environment, the breakdown returned by `compute_score_with_breakdown_async`
has exactly the five criterion entries Recency, PPD Screening, Similar
Studies, Distance to Site, Past Qualification, and the sum of their
integer point contributions equals the returned `total_business_score`. -/
theorem c1_breakdown_sums_to_total (env : ScoreEnv) (row : PatientRow)
    (acts : List ActivityRow) (siteZips : List String) :
    ((computeScoreWithBreakdown env row acts siteZips).breakdown.map
        (fun b => b.criterion)) =
      ["Recency", "PPD Screening", "Similar Studies", "Distance to Site",
        "Past Qualification"] ∧
    ((computeScoreWithBreakdown env row acts siteZips).breakdown.map
        (fun b => b.points)).sum =
      (computeScoreWithBreakdown env row acts siteZips).totalBusinessScore := by
  constructor
  · simp [computeScoreWithBreakdown]
  · simp only [computeScoreWithBreakdown, List.map_cons, List.map_nil,
      List.sum_cons, List.sum_nil]
    ring

/-- Claim C3 counterexample: for the pair `("XX", "XX")` with an
unresolvable code, coordinate resolution fails for both sides yet the
resolver returns `0.0` (the identical-code short-circuit), not the
"unknown" sentinel — so "sentinel iff resolution fails for at least one
side" is false as stated. -/
theorem c3_counterexample :
    calculateSingleDistance geoEnvUnresolved "XX" "XX" = 0 ∧
    geoEnvUnresolved.resolve "XX" = none ∧
    (0 : ℚ) ≠ DEFAULT_DISTANCE := by
  refine ⟨by simp [calculateSingleDistance], rfl, by norm_num [DEFAULT_DISTANCE]⟩

/-- Claim C3 (amended): for distinct codes, and provided genuinely
computed distances (native table or haversine) never take the sentinel
value, the resolver returns the sentinel `999` exactly when coordinate
resolution fails for at least one code; identical codes short-circuit to
`0` without any resolution; the sentinel differs from `0`. -/
theorem c3_sentinel_iff (env : GeoEnv) (A B : String) (hAB : A ≠ B)
    (hgeo : ∀ c x y, env.geoDist c x y ≠ some DEFAULT_DISTANCE)
    (hhav : ∀ p q u v, env.haversine p q u v ≠ DEFAULT_DISTANCE) :
    (calculateSingleDistance env A B = DEFAULT_DISTANCE ↔
      env.resolve A = none ∨ env.resolve B = none) ∧
    (∀ C, calculateSingleDistance env C C = 0) ∧
    (0 : ℚ) ≠ DEFAULT_DISTANCE := by
  refine ⟨?_, fun C => by simp [calculateSingleDistance], by norm_num [DEFAULT_DISTANCE]⟩
  unfold calculateSingleDistance
  rw [if_neg hAB]
  rcases h1 : env.resolve A with _ | ⟨c1, lat1, lon1⟩
  · simp
  · rcases h2 : env.resolve B with _ | ⟨c2, lat2, lon2⟩
    · simp
    · simp only [Option.some.injEq, reduceCtorEq, or_self, iff_false]
      by_cases hc : c1 = c2
      · rw [if_pos hc]
        rcases h3 : env.geoDist c1 A B with _ | d
        · exact hhav lat1 lon1 lat2 lon2
        · intro hd
          exact hgeo c1 A B (hd ▸ h3)
      · rw [if_neg hc]
        exact hhav lat1 lon1 lat2 lon2

/-- Claim C3 witness: a concrete environment resolving "11111" but not
"22222" satisfies the amended equivalence, and the resolver indeed
returns the sentinel there. -/
theorem c3_witness :
    (calculateSingleDistance geoEnvOneCode "11111" "22222" = DEFAULT_DISTANCE ↔
      geoEnvOneCode.resolve "11111" = none ∨ geoEnvOneCode.resolve "22222" = none) ∧
    calculateSingleDistance geoEnvOneCode "11111" "22222" = DEFAULT_DISTANCE := by
  have h := (c3_sentinel_iff geoEnvOneCode "11111" "22222" (by decide)
    (by intro c x y h; simp [geoEnvOneCode] at h)
    (by intro p q u v; norm_num [geoEnvOneCode, DEFAULT_DISTANCE])).1
  refine ⟨h, h.mpr (Or.inr ?_)⟩
  simp [geoEnvOneCode]

/-- Claim C4: vocabulary resolution follows strict precedence — a
case-insensitive whitespace-trimmed exact equality returns that single
value immediately; otherwise all values clearing the `fuzz.ratio`-85
threshold are returned; only when that set is empty, the values clearing
either 60-fallback scorer are returned; otherwise the empty list. -/
theorem c4_vocab_precedence (env : SimEnv) (term : PyStr) (vals : List PyStr) :
    ((∃ v ∈ vals, pyNorm v = pyNorm term) →
      ∃ v ∈ vals, pyNorm v = pyNorm term ∧
        fuzzyMatchFilter env term vals = [v]) ∧
    ((∀ v ∈ vals, pyNorm v ≠ pyNorm term) →
      (∃ v ∈ vals, FUZZY_MATCH_THRESHOLD ≤ env.sim (pyNorm term) (pyNorm v)) →
      fuzzyMatchFilter env term vals =
        vals.filter (fun v =>
          decide (FUZZY_MATCH_THRESHOLD ≤ env.sim (pyNorm term) (pyNorm v)))) ∧
    ((∀ v ∈ vals, pyNorm v ≠ pyNorm term) →
      (∀ v ∈ vals, ¬ FUZZY_MATCH_THRESHOLD ≤ env.sim (pyNorm term) (pyNorm v)) →
      fuzzyMatchFilter env term vals =
        vals.filter (fun v =>
          decide (FUZZY_MATCH_FALLBACK ≤ env.simPart (pyNorm term) (pyNorm v)) ||
          decide (FUZZY_MATCH_FALLBACK ≤ env.simTok (pyNorm term) (pyNorm v)))) ∧
    ((∀ v ∈ vals, pyNorm v ≠ pyNorm term) →
      (∀ v ∈ vals, ¬ FUZZY_MATCH_THRESHOLD ≤ env.sim (pyNorm term) (pyNorm v)) →
      (∀ v ∈ vals,
        ¬ FUZZY_MATCH_FALLBACK ≤ env.simPart (pyNorm term) (pyNorm v) ∧
        ¬ FUZZY_MATCH_FALLBACK ≤ env.simTok (pyNorm term) (pyNorm v)) →
      fuzzyMatchFilter env term vals = []) ∧
    FUZZY_MATCH_THRESHOLD = 85 ∧ FUZZY_MATCH_FALLBACK = 60 := by
  refine ⟨?_, ?_, ?_, ?_, rfl, rfl⟩
  · rintro ⟨v, hv, hnorm⟩
    have hsome : (vals.find? (fun v => pyNorm v == pyNorm term)).isSome := by
      rw [List.find?_isSome]
      exact ⟨v, hv, by simp [hnorm]⟩
    rcases hw : vals.find? (fun v => pyNorm v == pyNorm term) with _ | w
    · rw [hw] at hsome; simp at hsome
    · refine ⟨w, List.mem_of_find?_eq_some hw, ?_, ?_⟩
      · have := List.find?_some hw
        simpa using this
      · simp only [fuzzyMatchFilter, hw]
  · intro hno ⟨v, hv, hsim⟩
    have hnone : vals.find? (fun v => pyNorm v == pyNorm term) = none := by
      rw [List.find?_eq_none]
      intro x hx
      simpa using hno x hx
    have hne : vals.filter (fun v =>
        decide (FUZZY_MATCH_THRESHOLD ≤ env.sim (pyNorm term) (pyNorm v))) ≠ [] := by
      intro hempty
      rw [List.filter_eq_nil_iff] at hempty
      exact hempty v hv (by simpa using hsim)
    simp only [fuzzyMatchFilter, hnone]
    rw [if_neg (by simpa [List.isEmpty_iff] using hne)]
  · intro hno hnosim
    have hnone : vals.find? (fun v => pyNorm v == pyNorm term) = none := by
      rw [List.find?_eq_none]
      intro x hx
      simpa using hno x hx
    have hnil : vals.filter (fun v =>
        decide (FUZZY_MATCH_THRESHOLD ≤ env.sim (pyNorm term) (pyNorm v))) = [] := by
      rw [List.filter_eq_nil_iff]
      intro x hx
      simpa using hnosim x hx
    simp only [fuzzyMatchFilter, hnone]
    rw [if_pos (by simpa [List.isEmpty_iff] using hnil)]
  · intro hno hnosim hnofall
    have hnone : vals.find? (fun v => pyNorm v == pyNorm term) = none := by
      rw [List.find?_eq_none]
      intro x hx
      simpa using hno x hx
    have hnil : vals.filter (fun v =>
        decide (FUZZY_MATCH_THRESHOLD ≤ env.sim (pyNorm term) (pyNorm v))) = [] := by
      rw [List.filter_eq_nil_iff]
      intro x hx
      simpa using hnosim x hx
    simp only [fuzzyMatchFilter, hnone]
    rw [if_pos (by simpa [List.isEmpty_iff] using hnil)]
    rw [List.filter_eq_nil_iff]
    intro x hx
    have := hnofall x hx
    simp only [Bool.or_eq_true, decide_eq_true_eq]
    rintro (h | h)
    · exact this.1 h
    · exact this.2 h

/-- Claim C4 witness: with a constant `fuzz.ratio` of 90 and no exact
match, the second precedence rule applies on concrete data. -/
theorem c4_witness :
    fuzzyMatchFilter simEnvConst [100] [[101]] =
      List.filter (fun v =>
        decide (FUZZY_MATCH_THRESHOLD ≤ simEnvConst.sim (pyNorm [100]) (pyNorm v)))
        [[101]] := by
  apply (c4_vocab_precedence simEnvConst [100] [[101]]).2.1
  · intro v hv
    rcases List.mem_singleton.mp hv with rfl
    decide
  · refine ⟨[101], List.mem_singleton.mpr rfl, ?_⟩
    norm_num [simEnvConst, FUZZY_MATCH_THRESHOLD]

/-- Claim C10: vocabulary resolution is invariant under casing and
surrounding whitespace of the query term, because the term is
lower-cased and stripped before every comparison. -/
theorem c10_casing_whitespace_invariance (env : SimEnv) (vals : List PyStr)
    (term pre post : PyStr) (hpre : ∀ c ∈ pre, isSpaceCode c = true)
    (hpost : ∀ c ∈ post, isSpaceCode c = true) :
    fuzzyMatchFilter env (pre ++ term ++ post) vals =
      fuzzyMatchFilter env term vals ∧
    fuzzyMatchFilter env (pyUpper term) vals = fuzzyMatchFilter env term vals ∧
    fuzzyMatchFilter env (pyLower term) vals = fuzzyMatchFilter env term vals := by
  refine ⟨?_, ?_, ?_⟩
  · exact fuzzyMatchFilter_congr env (pyNorm_sandwich pre term post hpre hpost) vals
  · exact fuzzyMatchFilter_congr env (pyNorm_pyUpper term) vals
  · exact fuzzyMatchFilter_congr env (pyNorm_pyLower term) vals

/-- Claim C10 witness: the concrete term "Di" padded with a space and a
tab, upper-cased or lower-cased, resolves identically. -/
theorem c10_witness :
    fuzzyMatchFilter simEnvConst ([32] ++ [68, 105] ++ [9]) [[100, 105]] =
      fuzzyMatchFilter simEnvConst [68, 105] [[100, 105]] ∧
    fuzzyMatchFilter simEnvConst (pyUpper [68, 105]) [[100, 105]] =
      fuzzyMatchFilter simEnvConst [68, 105] [[100, 105]] := by
  have h := c10_casing_whitespace_invariance simEnvConst [[100, 105]] [68, 105]
    [32] [9] (by decide) (by decide)
  exact ⟨h.1, h.2.1⟩

/-- Claim C5 counterexample: the exclusion filter interprets its term as
a regular expression: the term "a.b" removes a patient whose indication
is "aXb", although "a.b" is not a substring of "aXb" — so "removed iff
the indication contains the term as a substring" is false as stated. -/
theorem c5_counterexample :
    applyExclusionFilter [rowAXB] ["a.b"] = [] ∧
    rowAXB.indication = some "aXb" ∧
    ¬ ("a.b".data <:+: "aXb".data) := by
  refine ⟨by decide, rfl, by decide⟩

/-- Claim C5 (amended): inclusion-filter membership is exact string
equality of the indication with some inclusion term; exclusion-filter
removal is regex matching of some exclusion term against the indication,
which for terms free of the `.` metacharacter is exactly substring
containment; equality with a metacharacter-free term implies its
regex/substring match, so inclusion matching is stronger, not
incomparable. -/
theorem c5_filter_matching (rows : List PatientRow) (ts : List String)
    (hts : ts ≠ []) :
    (∀ r, r ∈ applyIndicationFilter rows ts ↔
      r ∈ rows ∧ ∃ t ∈ ts, r.indication = some t) ∧
    (∀ r, r ∈ applyExclusionFilter rows ts ↔
      r ∈ rows ∧ ∃ ind, r.indication = some ind ∧
        ∀ t ∈ ts, ¬ regexSearch t ind = true) ∧
    (∀ (pat s : String), '.' ∉ pat.data →
      (regexSearch pat s = true ↔ pat.data <:+: s.data)) ∧
    (∀ t ind : String, '.' ∉ t.data → ind = t → regexSearch t ind = true) := by
  refine ⟨?_, ?_, fun pat s hp => regexSearch_iff_substr hp, ?_⟩
  · intro r
    rw [applyIndicationFilter, if_neg hts, List.mem_filter]
    simp only [List.any_eq_true, beq_iff_eq]
  · intro r
    rw [applyExclusionFilter, if_neg hts, List.mem_filter]
    constructor
    · rintro ⟨hr, hcond⟩
      rcases hind : r.indication with _ | ind
      · rw [hind] at hcond; simp at hcond
      · rw [hind] at hcond
        simp only [Bool.not_eq_true', List.any_eq_false] at hcond
        exact ⟨hr, ind, rfl, fun t ht => by simp [hcond t ht]⟩
    · rintro ⟨hr, ind, hind, hno⟩
      refine ⟨hr, ?_⟩
      rw [hind]
      simp only [Bool.not_eq_true', List.any_eq_false]
      intro t ht
      simpa using hno t ht
  · intro t ind hp he
    rw [regexSearch_iff_substr hp, he]

/-- Claim C5 witness: on concrete data, a patient whose indication
strictly contains the metacharacter-free term "X" is removed by the
exclusion filter without being matched by the inclusion filter. -/
theorem c5_witness :
    (rowAXB ∈ applyExclusionFilter [rowAXB] ["X"] ↔
      rowAXB ∈ [rowAXB] ∧ ∃ ind, rowAXB.indication = some ind ∧
        ∀ t ∈ ["X"], ¬ regexSearch t ind = true) ∧
    (rowAXB ∈ applyIndicationFilter [rowAXB] ["X"] ↔
      rowAXB ∈ [rowAXB] ∧ ∃ t ∈ ["X"], rowAXB.indication = some t) := by
  have h := c5_filter_matching [rowAXB] ["X"] (by decide)
  exact ⟨h.2.1 rowAXB, h.1 rowAXB⟩

/-- Claim C7 counterexample: the criterion picks the lexicographically
last randomization date string, not the chronologically most recent one.
With string dates "02/01/2025" (most recent, about eight months before
`today`) and "12/31/2010", the code parses "12/31/2010" and awards 25
points although the most recent randomization is less than one year
old. -/
theorem c7_counterexample :
    (pastQualSection scoreEnvDates rowBlank actsTwoRand).1 = 25 ∧
    randomizationDatesSorted actsTwoRand = ["02/01/2025", "12/31/2010"] ∧
    scoreEnvDates.safeDate "02/01/2025" = some 20120 ∧
    scoreEnvDates.safeDate "12/31/2010" = some 14974 ∧
    (14974 : ℤ) < 20120 ∧
    yearsSince scoreEnvDates.today 20120 < 1 := by
  have hlast : (randomizationDatesSorted actsTwoRand).getLast? =
      some "12/31/2010" := by decide
  have hdate : scoreEnvDates.safeDate "12/31/2010" = some 14974 := by decide
  refine ⟨?_, by decide, by decide, by decide, by decide, ?_⟩
  · unfold pastQualSection
    simp only [hlast, hdate]
    rw [if_pos (by norm_num [yearsSince, scoreEnvDates])]
  · norm_num [yearsSince, scoreEnvDates]

/-- Claim C7 (amended): the Past Qualification criterion inspects the
last randomization date string in the column's sort order (lexicographic
for string-typed dates, hence the chronologically most recent one only
when that order agrees with chronology): it awards 25 points iff that
date parses and lies at least 365.25 days in the past; a parsed more
recent date yields 0 with the "too recent" reason; an unparseable date
yields 0 with a reason saying so; absent randomization history yields 0
with a reason embedding the patient's latest milestone label. -/
theorem c7_past_qualification (env : ScoreEnv) (row : PatientRow)
    (acts : List ActivityRow) :
    ((pastQualSection env row acts).1 = 25 ↔
      ∃ lastDate d, (randomizationDatesSorted acts).getLast? = some lastDate ∧
        env.safeDate lastDate = some d ∧ 1 ≤ yearsSince env.today d) ∧
    (∀ lastDate d, (randomizationDatesSorted acts).getLast? = some lastDate →
      env.safeDate lastDate = some d → yearsSince env.today d < 1 →
      pastQualSection env row acts =
        (0, "Recently randomized on " ++ lastDate ++ " → excluded → 0 points")) ∧
    (∀ lastDate, (randomizationDatesSorted acts).getLast? = some lastDate →
      env.safeDate lastDate = none →
      pastQualSection env row acts =
        (0, "Unparseable randomization date: " ++ lastDate ++ " → 0 points")) ∧
    ((randomizationDatesSorted acts).getLast? = none →
      pastQualSection env row acts =
        (0, "Latest milestone = " ++ row.latestMilestone.getD "Unknown" ++
          " → No randomization history")) ∧
    (∀ lastDate, (randomizationDatesSorted acts).getLast? = some lastDate →
      ∀ x ∈ randomizationDatesSorted acts, strLeB x lastDate = true) := by
  refine ⟨?_, ?_, ?_, ?_, ?_⟩
  · unfold pastQualSection
    rcases hlast : (randomizationDatesSorted acts).getLast? with _ | lastDate
    · simp [hlast]
    · simp only [hlast]
      rcases hd : env.safeDate lastDate with _ | d
      · simp only [hd]
        constructor
        · intro h
          norm_num at h
        · rintro ⟨l2, d2, hl2, hd2, _⟩
          rw [Option.some.injEq] at hl2
          rw [← hl2, hd] at hd2
          exact absurd hd2 (by simp)
      · simp only [hd]
        by_cases hy : 1 ≤ yearsSince env.today d
        · rw [if_pos hy]
          constructor
          · intro _
            exact ⟨lastDate, d, rfl, hd, hy⟩
          · intro _
            rfl
        · rw [if_neg hy]
          constructor
          · intro h
            norm_num at h
          · rintro ⟨l2, d2, hl2, hd2, hy2⟩
            rw [Option.some.injEq] at hl2
            rw [← hl2, hd] at hd2
            rw [Option.some.injEq] at hd2
            exact absurd (hd2 ▸ hy2) hy
  · intro lastDate d hlast hd hy
    unfold pastQualSection
    simp only [hlast, hd]
    rw [if_neg (not_le.mpr hy)]
  · intro lastDate hlast hd
    unfold pastQualSection
    simp only [hlast, hd]
  · intro hlast
    unfold pastQualSection
    simp only [hlast]
  · intro lastDate hlast x hx
    have hne : randomizationDatesSorted acts ≠ [] := by
      intro h
      rw [h] at hlast
      simp at hlast
    have hsorted : (randomizationDatesSorted acts).Sorted
        (fun a b : String => strLeB a b = true) :=
      List.sorted_insertionSort _ _
    have hgl : (randomizationDatesSorted acts).getLast hne = lastDate := by
      have h2 := List.getLast?_eq_getLast (randomizationDatesSorted acts) hne
      rw [h2] at hlast
      exact Option.some.inj hlast
    rcases rel_getLast_of_sorted hsorted hne x hx with h | h
    · rw [h, hgl]
      exact lexLeB_refl lastDate.data
    · rw [hgl] at h
      exact h

/-- Claim C7 witness: a single old randomization date awards 25 points
through the amended equivalence. -/
theorem c7_witness : (pastQualSection scoreEnvDates rowBlank actsOneOld).1 = 25 := by
  apply (c7_past_qualification scoreEnvDates rowBlank actsOneOld).1.mpr
  refine ⟨"12/31/2010", 14974, by decide, by decide, ?_⟩
  norm_num [yearsSince, scoreEnvDates]

/-- Claim C8 counterexample: with site list `["S1", "S2"]` where "S1"
does not resolve and "S2" lies a genuine 5000 km away, the per-site
sentinel 999 enters the minimum and wins, so the criterion reports
"unable to calculate" with 0 points — although the minimum distance over
the resolved sites is 5000 km, for which the claim's ladder ("otherwise,
resolved distance above 100") prescribes 5 points. -/
theorem c8_counterexample :
    (distanceSection scoreEnvFarSite actsSingleZip ["S1", "S2"]).1 = 0 ∧
    calculateSingleDistance scoreEnvFarSite.geo "P1" "S2" = 5000 ∧
    scoreEnvFarSite.geo.resolve "S1" = none ∧
    scoreEnvFarSite.geo.resolve "P1" = some ("US", 0, 0) ∧
    scoreEnvFarSite.geo.resolve "S2" = some ("US", 1, 1) ∧
    specMinResolvedDistance scoreEnvFarSite.geo "P1" ["S1", "S2"] = some 5000 ∧
    distancePointsOf 5000 = 5 := by
  have h999 : calculateSingleDistance geoEnvFarSite "P1" "S1" = 999 := by
    simp [calculateSingleDistance, geoEnvFarSite, DEFAULT_DISTANCE]
  have h5000 : calculateSingleDistance geoEnvFarSite "P1" "S2" = 5000 := by
    simp [calculateSingleDistance, geoEnvFarSite]
  have hclosest : calculateClosestDistance geoEnvFarSite "P1" ["S1", "S2"] = 999 := by
    unfold calculateClosestDistance
    rw [if_neg (by simp)]
    simp only [List.map_cons, List.map_nil, h999, h5000]
    norm_num [foldMin, DEFAULT_DISTANCE]
  refine ⟨?_, h5000, rfl, rfl, rfl, ?_, by norm_num [distancePointsOf]⟩
  · unfold distanceSection
    rw [if_pos (by simp)]
    have hpz : patientZipOf actsSingleZip = some "P1" := by
      simp [patientZipOf, firstDedup, actsSingleZip]
    simp only [hpz]
    have hd : (if "P1" ∈ ["S1", "S2"] then (0 : ℚ)
        else calculateClosestDistance scoreEnvFarSite.geo "P1" ["S1", "S2"]) = 999 := by
      rw [if_neg (by decide), show scoreEnvFarSite.geo = geoEnvFarSite from rfl,
        hclosest]
    simp only [hd]
    norm_num
  · unfold specMinResolvedDistance
    have hfil : (["S1", "S2"].filter
        (fun s => (geoEnvFarSite.resolve s).isSome)) = ["S2"] := by
      simp [geoEnvFarSite]
    rw [show scoreEnvFarSite.geo = geoEnvFarSite from rfl, hfil]
    simp only [List.map_cons, List.map_nil, h5000]
    simp [foldMin]

/-- Claim C8 (amended): the Distance-to-Site criterion is a function of
the single distance value produced by erroring site lookups folded in at
the sentinel value 999 — an exact postal-code match short-circuits to 0;
the ladder then awards 20/20/15/10 for 0/<10/≤50/≤100, treats exactly
999 as unknown (0 points) and awards 5 otherwise; with no sites or no
patient postal code it awards 0 with two further distinct reasons. -/
theorem c8_distance_criterion (env : ScoreEnv) (acts : List ActivityRow)
    (siteZips : List String) :
    (siteZips = [] →
      distanceSection env acts siteZips =
        (0, "No site zip codes provided → 0 points (Distance calculation not possible)")) ∧
    (siteZips ≠ [] → patientZipOf acts = none →
      distanceSection env acts siteZips =
        (0, "Site zip codes provided but patient zip missing → 0 points (No patient location)")) ∧
    (∀ pz, siteZips ≠ [] → patientZipOf acts = some pz →
      (distanceSection env acts siteZips).1 =
        distancePointsOf (if pz ∈ siteZips then 0
          else calculateClosestDistance env.geo pz siteZips)) ∧
    ("No site zip codes provided → 0 points (Distance calculation not possible)" ≠
      "Site zip codes provided but patient zip missing → 0 points (No patient location)") := by
  refine ⟨?_, ?_, ?_, by decide⟩
  · intro h
    subst h
    simp [distanceSection]
  · intro hne hpz
    unfold distanceSection
    rw [if_pos hne]
    simp only [hpz]
  · intro pz hne hpz
    unfold distanceSection
    rw [if_pos hne]
    simp only [hpz]
    unfold distancePointsOf
    split_ifs <;> simp_all

/-- Claim C8 witness: the amended point characterisation evaluated on
the concrete far-site environment. -/
theorem c8_witness :
    (distanceSection scoreEnvFarSite actsSingleZip ["S1", "S2"]).1 =
      distancePointsOf (if "P1" ∈ ["S1", "S2"] then 0
        else calculateClosestDistance scoreEnvFarSite.geo "P1" ["S1", "S2"]) :=
  (c8_distance_criterion scoreEnvFarSite actsSingleZip ["S1", "S2"]).2.2.1 "P1"
    (by decide) (by simp [patientZipOf, firstDedup, actsSingleZip])

/-- Claim C9: an empty or absent free-text query parses to the empty
filter set (no scan runs, nothing can raise), and the empty filter set
leaves the population untouched, so the request is answered by ranking
all patients: every patient id of the population appears in the result,
and the result only contains rows of the population. -/
theorem c9_empty_query (penv : ParseEnv) (q : Option String)
    (hq : q = none ∨ ∃ s, q = some s ∧ s.trim = "") (rows : List PatientRow) :
    parseQuery penv q = FilterSet.empty ∧
    applyFilters FilterSet.empty rows = rows ∧
    (∀ r ∈ rows, ∃ x ∈ filterPatients FilterSet.empty rows none,
      x.patientId = r.patientId) ∧
    (∀ x ∈ filterPatients FilterSet.empty rows none, x ∈ rows) := by
  have hempty : applyFilters FilterSet.empty rows = rows := rfl
  refine ⟨?_, hempty, ?_, ?_⟩
  · rcases hq with rfl | ⟨s, rfl, hs⟩
    · rfl
    · simp [parseQuery, hs]
  · intro r hr
    have h1 : r ∈ sortByScoreDesc (applyFilters FilterSet.empty rows) := by
      rw [hempty]
      unfold sortByScoreDesc
      exact (List.mem_insertionSort _).mpr hr
    obtain ⟨x, hx, hxe⟩ := exists_mem_dedupByPatientId h1
    refine ⟨x, ?_, hxe⟩
    unfold filterPatients sortByScoreDesc
    exact (List.mem_insertionSort _).mpr hx
  · intro x hx
    unfold filterPatients sortByScoreDesc at hx
    have hx2 := (List.mem_insertionSort _).mp hx
    have hx3 := mem_of_mem_dedupByPatientId hx2
    have hx4 := (List.mem_insertionSort _).mp hx3
    rwa [hempty] at hx4

/-- Claim C9 witness: the absent query on a concrete population. -/
theorem c9_witness :
    parseQuery parseEnvTrivial none = FilterSet.empty ∧
    applyFilters FilterSet.empty rowsDupId = rowsDupId := by
  have h := c9_empty_query parseEnvTrivial none (Or.inl rfl) rowsDupId
  exact ⟨h.1, h.2.1⟩

/-- Claim C6: after filtering, a patient id occurring in several rows
survives deduplication in exactly one row, that row carries the maximum
precomputed `business_score` among the id's filtered rows, the result is
sorted descending by that score, and a given result-size limit only
truncates the unlimited result. -/
theorem c6_dedup_max_sort_limit (fs : FilterSet) (rows : List PatientRow)
    (pid : ℤ) (k : ℕ)
    (hmulti : 2 ≤ (applyFilters fs rows).countP (fun r => r.patientId == pid)) :
    (filterPatients fs rows none).countP (fun r => r.patientId == pid) = 1 ∧
    (∃ x ∈ filterPatients fs rows none, x.patientId = pid ∧
      x ∈ applyFilters fs rows ∧
      ∀ s ∈ applyFilters fs rows, s.patientId = pid →
        s.businessScore ≤ x.businessScore) ∧
    (filterPatients fs rows none).Sorted
      (fun a b => b.businessScore ≤ a.businessScore) ∧
    filterPatients fs rows (some k) = (filterPatients fs rows none).take k := by
  have hperm1 : List.Perm (sortByScoreDesc (applyFilters fs rows))
      (applyFilters fs rows) :=
    List.perm_insertionSort _ _
  have hsorted1 : (sortByScoreDesc (applyFilters fs rows)).Sorted
      (fun a b => b.businessScore ≤ a.businessScore) :=
    List.sorted_insertionSort _ _
  have hpermf : List.Perm (filterPatients fs rows none)
      (dedupByPatientId (sortByScoreDesc (applyFilters fs rows))) :=
    List.perm_insertionSort _ _
  have hpos : 0 < (applyFilters fs rows).countP (fun r => r.patientId == pid) := by
    omega
  obtain ⟨r0, hr0, hr0p⟩ := List.countP_pos_iff.mp hpos
  have hany : (sortByScoreDesc (applyFilters fs rows)).any
      (fun r => r.patientId == pid) = true :=
    List.any_eq_true.mpr ⟨r0, hperm1.mem_iff.mpr hr0, hr0p⟩
  have hcount1 : (dedupByPatientId
      (sortByScoreDesc (applyFilters fs rows))).countP
        (fun r => r.patientId == pid) = 1 := by
    rw [countP_dedupByPatientId, if_pos hany]
  refine ⟨?_, ?_, List.sorted_insertionSort _ _, rfl⟩
  · rw [hpermf.countP_eq, hcount1]
  · have hpos2 : 0 < (dedupByPatientId
        (sortByScoreDesc (applyFilters fs rows))).countP
          (fun r => r.patientId == pid) := by
      omega
    obtain ⟨x, hx, hxp⟩ := List.countP_pos_iff.mp hpos2
    have hxpid : x.patientId = pid := by simpa using hxp
    refine ⟨x, hpermf.mem_iff.mpr hx, hxpid, ?_, ?_⟩
    · exact hperm1.mem_iff.mp (mem_of_mem_dedupByPatientId hx)
    · intro s hs hspid
      exact score_le_of_mem_dedupByPatientId hsorted1 hx s
        (hperm1.mem_iff.mpr hs) (by rw [hspid, hxpid])

/-- Claim C6 witness: two rows with the same patient id, scores 1 and 5,
collapse to a single surviving row. -/
theorem c6_witness :
    (filterPatients FilterSet.empty rowsDupId none).countP
      (fun r => r.patientId == 1) = 1 :=
  (c6_dedup_max_sort_limit FilterSet.empty rowsDupId 1 0 (by decide)).1

/-- Claim C2: on a non-empty result list the handler reads the maximum
total off the head and the minimum off the last entry of the
descending-sorted results (these are the true maximum and minimum); with
max > min every result's match percentage is its total linearly rescaled
to [0,100] rounded to two decimals, the head getting 100 and the last
entry 0; with all totals equal every result gets 100; and the
`business_score_percent` field always equals the match percentage while
`business_score_normalized` carries the same value scaled by 1/100. -/
theorem c2_normalization (scores : List ℤ) (M m : ℤ)
    (hM : (sortDescInt scores).head? = some M)
    (hm : (sortDescInt scores).getLast? = some m) :
    (M ∈ scores ∧ m ∈ scores ∧ ∀ s ∈ scores, m ≤ s ∧ s ≤ M) ∧
    (m < M →
      normalizeResults scores = (sortDescInt scores).map (fun s : ℤ =>
        (pyRound (((s : ℚ) - (m : ℚ)) / ((M : ℚ) - (m : ℚ)) * 100) 2,
         pyRound (((s : ℚ) - (m : ℚ)) / ((M : ℚ) - (m : ℚ))) 4,
         pyRound (((s : ℚ) - (m : ℚ)) / ((M : ℚ) - (m : ℚ)) * 100) 2)) ∧
      (normalizeResults scores).head? = some (100, 1, 100) ∧
      (normalizeResults scores).getLast? = some (0, 0, 0)) ∧
    (M = m → ∀ x ∈ normalizeResults scores, x = (100, 1, 100)) ∧
    (∀ x ∈ normalizeResults scores, x.1 = x.2.2 ∧ x.1 = 100 * x.2.1) := by
  have hne : sortDescInt scores ≠ [] := by
    intro h
    rw [h] at hM
    simp at hM
  obtain ⟨a, rest, hcons⟩ := List.exists_cons_of_ne_nil hne
  have haM : a = M := by
    rw [hcons] at hM
    simpa using hM
  have hglm : (a :: rest).getLast (List.cons_ne_nil a rest) = m := by
    have h2 := List.getLast?_eq_getLast (a :: rest) (List.cons_ne_nil a rest)
    rw [hcons] at hm
    rw [h2] at hm
    exact Option.some.inj hm
  have hsorted : (sortDescInt scores).Sorted (fun x y : ℤ => y ≤ x) :=
    List.sorted_insertionSort _ _
  have hperm : List.Perm (sortDescInt scores) scores :=
    List.perm_insertionSort _ _
  have hMmem : M ∈ scores := by
    apply hperm.mem_iff.mp
    rw [hcons, ← haM]
    exact List.mem_cons_self _ _
  have hmmem : m ∈ scores := by
    apply hperm.mem_iff.mp
    rw [← hglm, hcons]
    exact List.getLast_mem _
  have hlast : (sortDescInt scores).getLast hne = m := by
    have h2 := List.getLast?_eq_getLast (sortDescInt scores) hne
    rw [h2] at hm
    exact Option.some.inj hm
  have hbound : ∀ s ∈ scores, m ≤ s ∧ s ≤ M := by
    intro s hs
    have hs2 : s ∈ sortDescInt scores := hperm.mem_iff.mpr hs
    constructor
    · rcases rel_getLast_of_sorted hsorted hne s hs2 with h | h
      · rw [h, hlast]
      · rwa [hlast] at h
    · rw [hcons] at hs2
      rcases List.mem_cons.mp hs2 with rfl | hs3
      · rw [haM]
      · rw [hcons] at hsorted
        have := (List.sorted_cons.mp hsorted).1 s hs3
        rw [← haM]
        exact this
  have hunfold : normalizeResults scores =
      (a :: rest).map (fun s : ℤ => normalizeTriple ((a : ℤ) : ℚ) ((m : ℤ) : ℚ)
        ((s : ℤ) : ℚ)) := by
    unfold normalizeResults
    rw [hcons]
    show (a :: rest).map (fun s : ℤ => normalizeTriple ((a : ℤ) : ℚ)
      ((((a :: rest).getLast (List.cons_ne_nil a rest) : ℤ)) : ℚ)
      ((s : ℤ) : ℚ)) = _
    rw [hglm]
  refine ⟨⟨hMmem, hmmem, hbound⟩, ?_, ?_, ?_⟩
  · intro hlt
    have hltq : ((m : ℤ) : ℚ) < ((M : ℤ) : ℚ) := by exact_mod_cast hlt
    have hden : ((M : ℤ) : ℚ) - ((m : ℤ) : ℚ) ≠ 0 :=
      sub_ne_zero.mpr (ne_of_gt hltq)
    have hmapeq : normalizeResults scores = (a :: rest).map (fun s : ℤ =>
        (pyRound (((s : ℚ) - (m : ℚ)) / ((M : ℚ) - (m : ℚ)) * 100) 2,
         pyRound (((s : ℚ) - (m : ℚ)) / ((M : ℚ) - (m : ℚ))) 4,
         pyRound (((s : ℚ) - (m : ℚ)) / ((M : ℚ) - (m : ℚ)) * 100) 2)) := by
      rw [hunfold]
      apply List.map_congr_left
      intro s _
      rw [haM]
      unfold normalizeTriple
      rw [if_pos hltq]
    refine ⟨by rw [hmapeq, hcons], ?_, ?_⟩
    · rw [hmapeq]
      simp only [List.map_cons, List.head?_cons, Option.some.injEq]
      rw [haM]
      rw [div_self hden, one_mul]
      rw [pyRound_hundred, pyRound_one]
    · rw [hmapeq, List.getLast?_map]
      have hl2 : (a :: rest).getLast? = some m := by
        rw [← hcons]
        exact hm
      rw [hl2, Option.map_some']
      simp only [Option.some.injEq]
      rw [sub_self, zero_div, zero_mul, pyRound_zero, pyRound_zero]
  · intro heq x hx
    rw [hunfold] at hx
    obtain ⟨s, _, hxeq⟩ := List.mem_map.mp hx
    rw [← hxeq]
    unfold normalizeTriple
    rw [if_neg]
    rw [haM, heq]
    exact lt_irrefl _
  · intro x hx
    rw [hunfold] at hx
    obtain ⟨s, _, hxeq⟩ := List.mem_map.mp hx
    rw [← hxeq]
    unfold normalizeTriple
    by_cases hlt : ((m : ℤ) : ℚ) < ((a : ℤ) : ℚ)
    · rw [if_pos hlt]
      exact ⟨rfl, pyRound_mul_100 _⟩
    · rw [if_neg hlt]
      norm_num

/-- Claim C2 witness: scores 10, 0, 5 rescale to 100, 50, 0 percent with
the head at 100. -/
theorem c2_witness : (normalizeResults [10, 0, 5]).head? = some (100, 1, 100) := by
  have h := c2_normalization [10, 0, 5] 10 0 (by decide) (by decide)
  exact (h.2.1 (by norm_num)).2.1

end PatientMatching
